import Mathlib

/-!
Shallow embedding of the `sud` (Swagger UI Downloader) Go program:
the semver model (`sanitizeVersion`, `splitSemver`, `isVersionValueValid`,
`existsNewerVersion` from `src/main.go`), the archive extractor (`Untar`
from the unnamed source part), and the orchestrator (`main` from
`src/main.go`) modelled as a function of an oracle of step outcomes.
-/

namespace Sud

/-- Go byte-wise lexicographic string "less than" on the character lists
(Go compares strings byte-wise; for the ASCII data handled here this
coincides with codepoint comparison). -/
def charListLess : List Char → List Char → Bool
  | [], [] => false
  | [], _ :: _ => true
  | _ :: _, [] => false
  | a :: as, b :: bs =>
    if a < b then true
    else if b < a then false
    else charListLess as bs

/-- Go string comparison `a < b` as used by `existsNewerVersion`. -/
def goLess (a b : String) : Bool :=
  charListLess a.data b.data

/-- Split a character list on a separator character, Go
`strings.Split` semantics (an empty input yields one empty piece). -/
def splitOnChar (sep : Char) : List Char → List (List Char)
  | [] => [[]]
  | c :: rest =>
    let r := splitOnChar sep rest
    if c = sep then [] :: r
    else
      match r with
      | [] => [[c]]
      | h :: t => (c :: h) :: t

/-- `sanitizeVersion` from `src/main.go`: drops the first character iff it
is the literal character v (Go: `strings.Index(*v, "v") == 0`). -/
def sanitizeVersion (v : String) : String :=
  match v.data with
  | 'v' :: rest => String.mk rest
  | _ => v

/-- Decimal value of a digit list (used to model `strconv.Atoi`). -/
def natFromDigits (l : List Char) : Nat :=
  l.foldl (fun acc c => acc * 10 + (c.toNat - 48)) 0

/-- Model of Go `strconv.Atoi`: optional single leading sign, then a
non-empty run of decimal digits; anything else is an error (`none`).
The 64-bit range cutoff is not modelled. -/
def goAtoi (s : String) : Option Int :=
  let signed : Int × List Char :=
    match s.data with
    | '+' :: rest => (1, rest)
    | '-' :: rest => (-1, rest)
    | l => (1, l)
  match signed with
  | (sign, digits) =>
    if digits.isEmpty then none
    else if digits.all Char.isDigit then some (sign * (natFromDigits digits : Int))
    else none

/-- `isVersionValueValid` from `src/main.go`: split on the dot and require
every piece to `Atoi`-parse to a non-negative integer. -/
def isVersionValueValid (version : String) : Bool :=
  ((splitOnChar '.' version.data).map String.mk).all fun part =>
    match goAtoi part with
    | some n => decide (0 ≤ n)
    | none => false

/-- `splitSemver` from `src/main.go`: split on the dot. -/
def splitSemver (version : String) : List String :=
  (splitOnChar '.' version.data).map String.mk

/-- `existsNewerVersion` from `src/main.go`: the Go loop
`for i := range current { if current[i] > previous[i] { return true } }`.
Indexing `previous[i]` with `i` beyond its length panics at runtime,
modelled as `none`; normal returns are `some b`. -/
def existsNewerVersion : List String → List String → Option Bool
  | _, [] => some false
  | [], _ :: _ => none
  | p :: ps, c :: cs =>
    if goLess p c then some true
    else existsNewerVersion ps cs

/-- Modelled from the spec: `compare(a, b)` as component-by-component,
left-to-right short-circuit string comparison returning
LESS/EQUAL/GREATER. -/
def specCompare : List String → List String → Ordering
  | [], [] => Ordering.eq
  | [], _ :: _ => Ordering.lt
  | _ :: _, [] => Ordering.gt
  | a :: as, b :: bs =>
    if goLess a b then Ordering.lt
    else if goLess b a then Ordering.gt
    else specCompare as bs

/-- Modelled from the spec: parsing "strips a single optional leading
non-numeric prefix character (e.g. v)". -/
def specSanitizeVersion (v : String) : String :=
  match v.data with
  | c :: rest => if c.isDigit then v else String.mk rest
  | [] => v

/-- Tar entry type flag, restricted to the cases `Untar` distinguishes. -/
inductive TarType
  | dir
  | reg
  | other
deriving DecidableEq

/-- One archive entry header as consumed by `Untar`: a name (the path
stored in the archive) and a type flag. -/
structure TarEntry where
  name : String
  typeflag : TarType
deriving DecidableEq

/-- Split a path string into its slash-separated segments, dropping empty
segments (as Go `filepath.Clean` does while scanning). -/
def pathParts (s : String) : List String :=
  ((splitOnChar '/' s.data).map String.mk).filter fun seg => seg ≠ ""

/-- Resolve dot and dot-dot segments of a relative path the way Go
`filepath.Clean` does: a dot is dropped, a dot-dot cancels the preceding
real segment and is kept when nothing precedes it. The accumulator holds
the already-resolved segments in reverse. -/
def resolveDots : List String → List String → List String
  | acc, [] => acc.reverse
  | acc, "." :: rest => resolveDots acc rest
  | acc, ".." :: rest =>
    match acc with
    | [] => resolveDots [".."] rest
    | a :: as => if a = ".." then resolveDots (".." :: a :: as) rest else resolveDots as rest
  | acc, seg :: rest => resolveDots (seg :: acc) rest

/-- Go `filepath.Join(dst, name)` for a relative `dst`, returned as the
cleaned segment list of the resulting path. -/
def goFilepathJoin (dst name : String) : List String :=
  resolveDots [] (pathParts dst ++ pathParts name)

/-- Whether a cleaned target path (as segments) still lies inside the
cleaned destination directory: the destination segments are an initial
run of the target segments. -/
def withinDir : List String → List String → Bool
  | [], _ => true
  | _ :: _, [] => false
  | d :: ds, t :: ts => d = t && withinDir ds ts

/-- `Untar` from the unnamed source part: iterate the entry headers of the
stream (a nil header, modelled as `none`, is skipped); for each real entry
compute `target = filepath.Join(dst, header.Name)` and create the
directory or write the file there; return nil (`Except.ok`) at
end-of-stream. The returned list is the sequence of target paths written
(directories made and files created), in order; filesystem operations
themselves are assumed to succeed. No containment check is performed on
`target`. -/
def untar (dst : String) : List (Option TarEntry) → Except String (List (List String))
  | [] => Except.ok []
  | none :: rest => untar dst rest
  | some e :: rest =>
    let target := goFilepathJoin dst e.name
    match e.typeflag with
    | TarType.dir =>
      match untar dst rest with
      | Except.ok written => Except.ok (target :: written)
      | Except.error msg => Except.error msg
    | TarType.reg =>
      match untar dst rest with
      | Except.ok written => Except.ok (target :: written)
      | Except.error msg => Except.error msg
    | TarType.other => untar dst rest

/-- How the process terminates: exit code 0, exit code 1 (via
`logErrorFatal`), or a Go runtime panic. -/
inductive Term
  | exit0
  | exit1
  | panicked
deriving DecidableEq

/-- Filesystem-mutating events of one orchestrator run, in order:
creating the output directory, writing the downloaded archive, writing
extracted files, copying the payload into the output directory, removing
the staging directory, removing the archive, and writing the version
marker with the given version string. -/
inductive Ev
  | mkdirOut
  | writeTar
  | writeExtract
  | writeCopy (first : String)
  | removeExtract
  | removeTar
  | writeMarker (v : String)
deriving DecidableEq

/-- Result of `copyContentsToOutput`: a panic when the staging directory
listing is empty (`subdirs[0]` out of range), a successful copy of the
first listed entry, or a copy error. -/
inductive CopyResult
  | panicked
  | copied (first : String)
  | failed
deriving DecidableEq

/-- `copyContentsToOutput` from `src/main.go`: list the staging directory
(read error ignored), then copy `subdirs[0].Name()/dist` into the output
directory. An empty listing panics on the index; otherwise the first
entry is used, with no check that it is the only one. -/
def copyContentsToOutput (subdirs : List String) (copyOk : Bool) : CopyResult :=
  match subdirs with
  | [] => CopyResult.panicked
  | d :: _ => if copyOk then CopyResult.copied d else CopyResult.failed

/-- Environment oracle for one run of `main`: which filesystem facts hold
and which fallible steps succeed. `readData` is the marker file's bytes
(`none` = read error); `yamlVersion` is the `version` field the YAML
unmarshal of those bytes yields (`none` = unmarshal error, the empty
string when the key is absent). -/
structure Oracle where
  dirExists : Bool
  mkdirOk : Bool
  fileExists : Bool
  readData : Option String
  yamlVersion : Option String
  fetchOk : Bool
  remoteTag : String
  downloadOk : Bool
  extractOk : Bool
  stagingEntries : List String
  copyOk : Bool
  removeTarOk : Bool
  saveOk : Bool

/-- The marker-reading ladder of `main` (`src/main.go` lines 196-233):
the previous version parts default to 0.0.0 and are replaced only when
the output directory and marker file exist, the file is readable, the
YAML parses, the version key is non-empty, and the sanitized value is
valid; then they become the split of the sanitized value. -/
def prevParts (o : Oracle) : List String :=
  if o.dirExists && o.fileExists then
    match o.readData, o.yamlVersion with
    | some _, some ver =>
      if ver.length > 0 then
        let v := sanitizeVersion ver
        if isVersionValueValid v then splitSemver v else ["0", "0", "0"]
      else ["0", "0", "0"]
    | _, _ => ["0", "0", "0"]
  else ["0", "0", "0"]

/-- The download-onwards span of `main` (`src/main.go` lines 263-292):
download → extract → copy → clearRemaining → setLatestVersion, each
failure fatal (`logErrorFatal`), collecting this span's filesystem
events in order. -/
def syncPhase (o : Oracle) (tag : String) : Term × List Ev :=
  if o.downloadOk = false then (Term.exit1, [])
  else if o.extractOk = false then (Term.exit1, [Ev.writeTar])
  else
    match copyContentsToOutput o.stagingEntries o.copyOk with
    | CopyResult.panicked => (Term.panicked, [Ev.writeTar, Ev.writeExtract])
    | CopyResult.failed => (Term.exit1, [Ev.writeTar, Ev.writeExtract])
    | CopyResult.copied d =>
      if o.removeTarOk = false then
        (Term.exit1, [Ev.writeTar, Ev.writeExtract, Ev.writeCopy d, Ev.removeExtract])
      else if o.saveOk = false then
        (Term.exit1,
          [Ev.writeTar, Ev.writeExtract, Ev.writeCopy d, Ev.removeExtract, Ev.removeTar])
      else
        (Term.exit0,
          [Ev.writeTar, Ev.writeExtract, Ev.writeCopy d, Ev.removeExtract, Ev.removeTar,
            Ev.writeMarker tag])

/-- The body of `main` after the marker ladder, parameterised by the
previous version parts: create the output directory when missing (fatal
on failure), fetch the release info (fatal on failure), sanitize and
split the remote tag, compare, and either exit 0 or run the download
span. -/
def runMainWith (prev : List String) (o : Oracle) : Term × List Ev :=
  if o.dirExists = false && o.mkdirOk = false then
    (Term.exit1, [])
  else
    let ev0 : List Ev := if o.dirExists then [] else [Ev.mkdirOut]
    if o.fetchOk = false then (Term.exit1, ev0)
    else
      let tag := sanitizeVersion o.remoteTag
      match existsNewerVersion prev (splitSemver tag) with
      | none => (Term.panicked, ev0)
      | some false => (Term.exit0, ev0)
      | some true => ((syncPhase o tag).1, ev0 ++ (syncPhase o tag).2)

/-- `main` from `src/main.go`: the marker ladder feeding the rest of the
run. -/
def runMain (o : Oracle) : Term × List Ev :=
  runMainWith (prevParts o) o

/-- The same oracle with the marker file absent: the situation the spec
calls "as if no marker existed". -/
def clearMarker (o : Oracle) : Oracle :=
  Oracle.mk o.dirExists o.mkdirOk false o.readData o.yamlVersion o.fetchOk
    o.remoteTag o.downloadOk o.extractOk o.stagingEntries o.copyOk
    o.removeTarOk o.saveOk

/-- The ways loading the version marker can fail: file absent, read
error, YAML unmarshal error, version key absent (empty), or an invalid
version value after sanitizing. -/
def markerLoadFailed (o : Oracle) : Prop :=
  o.fileExists = false ∨ o.readData = none ∨ o.yamlVersion = none ∨
    (∃ v, o.yamlVersion = some v ∧
      (v.length = 0 ∨ isVersionValueValid (sanitizeVersion v) = false))

end Sud

namespace Sud

/-- On the download-onwards span, a failing download, extraction, or copy
step yields a non-zero termination and never writes the marker. -/
theorem syncPhase_fail (o : Oracle) (tag : String)
    (h : o.downloadOk = false ∨ o.extractOk = false ∨ o.copyOk = false) :
    (syncPhase o tag).1 ≠ Term.exit0 ∧ ∀ v, Ev.writeMarker v ∉ (syncPhase o tag).2 := by
  obtain ⟨dE, mO, fE, rD, yV, fO, rtag, dO, eO, sE, cO, rO, sO⟩ := o
  cases dO <;> cases eO <;> cases sE <;> cases cO <;> cases rO <;> cases sO <;>
    simp_all [syncPhase, copyContentsToOutput]

/-- A marker write on the download-onwards span happens only on the fully
successful path and is the last event of the span. -/
theorem syncPhase_marker (o : Oracle) (tag v : String)
    (h : Ev.writeMarker v ∈ (syncPhase o tag).2) :
    (syncPhase o tag).1 = Term.exit0 ∧
      ∃ pre, (syncPhase o tag).2 = pre ++ [Ev.writeMarker v] := by
  obtain ⟨dE, mO, fE, rD, yV, fO, rtag, dO, eO, sE, cO, rO, sO⟩ := o
  cases dO <;> cases eO <;> cases sE <;> cases cO <;> cases rO <;> cases sO <;>
    simp_all [syncPhase, copyContentsToOutput]
  all_goals exact ⟨[Ev.writeTar, Ev.writeExtract, Ev.writeCopy _, Ev.removeExtract,
    Ev.removeTar], rfl⟩

/-- A successful download on the span records the archive write. -/
theorem syncPhase_writeTar (o : Oracle) (tag : String) (h : o.downloadOk = true) :
    Ev.writeTar ∈ (syncPhase o tag).2 := by
  obtain ⟨dE, mO, fE, rD, yV, fO, rtag, dO, eO, sE, cO, rO, sO⟩ := o
  cases dO <;> cases eO <;> cases sE <;> cases cO <;> cases rO <;> cases sO <;>
    simp_all [syncPhase, copyContentsToOutput]

/-- Cleanup structure of the span: the staging removal happens exactly
when the copy succeeded, the archive removal follows it when the removal
call succeeds, and a failed extraction never reaches the archive
removal. -/
theorem syncPhase_cleanup (o : Oracle) (tag : String) :
    (Ev.removeExtract ∈ (syncPhase o tag).2 ↔
      ∃ d, Ev.writeCopy d ∈ (syncPhase o tag).2) ∧
    (Ev.removeExtract ∈ (syncPhase o tag).2 → o.removeTarOk = true →
      Ev.removeTar ∈ (syncPhase o tag).2) ∧
    (o.extractOk = false → Ev.removeTar ∉ (syncPhase o tag).2) := by
  obtain ⟨dE, mO, fE, rD, yV, fO, rtag, dO, eO, sE, cO, rO, sO⟩ := o
  cases dO <;> cases eO <;> cases sE <;> cases cO <;> cases rO <;> cases sO <;>
    simp_all [syncPhase, copyContentsToOutput]

/-- Exhaustive shape of a run of `main`: the early mkdir failure, or an
event prefix `ev0` (empty or the directory creation) followed by one of
the fetch-failure, comparison-panic, up-to-date, or download-span
outcomes. -/
theorem runMain_shape (o : Oracle) :
    (o.dirExists = false ∧ o.mkdirOk = false ∧ runMain o = (Term.exit1, [])) ∨
    (∃ ev0 : List Ev,
      ((o.dirExists = true ∧ ev0 = []) ∨
        (o.dirExists = false ∧ o.mkdirOk = true ∧ ev0 = [Ev.mkdirOut])) ∧
      ((o.fetchOk = false ∧ runMain o = (Term.exit1, ev0)) ∨
       (o.fetchOk = true ∧
        ((existsNewerVersion (prevParts o)
            (splitSemver (sanitizeVersion o.remoteTag)) = none ∧
          runMain o = (Term.panicked, ev0)) ∨
         (existsNewerVersion (prevParts o)
            (splitSemver (sanitizeVersion o.remoteTag)) = some false ∧
          runMain o = (Term.exit0, ev0)) ∨
         (existsNewerVersion (prevParts o)
            (splitSemver (sanitizeVersion o.remoteTag)) = some true ∧
          runMain o = ((syncPhase o (sanitizeVersion o.remoteTag)).1,
            ev0 ++ (syncPhase o (sanitizeVersion o.remoteTag)).2)))))) := by
  cases hD : o.dirExists with
  | false =>
    cases hM : o.mkdirOk with
    | false => exact Or.inl ⟨rfl, rfl, by simp [runMain, runMainWith, hD, hM]⟩
    | true =>
      refine Or.inr ⟨[Ev.mkdirOut], Or.inr ⟨rfl, rfl, rfl⟩, ?_⟩
      cases hF : o.fetchOk with
      | false => exact Or.inl ⟨rfl, by simp [runMain, runMainWith, hD, hM, hF]⟩
      | true =>
        refine Or.inr ⟨rfl, ?_⟩
        cases hr : existsNewerVersion (prevParts o)
            (splitSemver (sanitizeVersion o.remoteTag)) with
        | none => exact Or.inl ⟨rfl, by simp [runMain, runMainWith, hD, hM, hF, hr]⟩
        | some b =>
          cases b with
          | false =>
            exact Or.inr (Or.inl ⟨rfl, by simp [runMain, runMainWith, hD, hM, hF, hr]⟩)
          | true =>
            exact Or.inr (Or.inr ⟨rfl, by simp [runMain, runMainWith, hD, hM, hF, hr]⟩)
  | true =>
    refine Or.inr ⟨[], Or.inl ⟨rfl, rfl⟩, ?_⟩
    cases hF : o.fetchOk with
    | false => exact Or.inl ⟨rfl, by simp [runMain, runMainWith, hD, hF]⟩
    | true =>
      refine Or.inr ⟨rfl, ?_⟩
      cases hr : existsNewerVersion (prevParts o)
          (splitSemver (sanitizeVersion o.remoteTag)) with
      | none => exact Or.inl ⟨rfl, by simp [runMain, runMainWith, hD, hF, hr]⟩
      | some b =>
        cases b with
        | false =>
          exact Or.inr (Or.inl ⟨rfl, by simp [runMain, runMainWith, hD, hF, hr]⟩)
        | true =>
          exact Or.inr (Or.inr ⟨rfl, by simp [runMain, runMainWith, hD, hF, hr]⟩)

end Sud

namespace Sud

/-- Claim C1, counterexample: the claim states that `isNewer(a, b)` holds
iff `compare(a, b) == LESS` under left-to-right short-circuit string
comparison, and that for baseline 2.0.0 and remote 1.9.9 `isNewer` is
false and the orchestrator reaches UP_TO_DATE without downloading. On the
code, `existsNewerVersion(["2","0","0"], ["1","9","9"])` returns true
(position 1 has "9" > "0") while `compare` is GREATER, and a run with
marker 2.0.0 and remote tag v1.9.9 downloads, extracts, and overwrites
the marker with 1.9.9. -/
theorem isNewer_vs_compare_counterexample :
    existsNewerVersion ["2", "0", "0"] ["1", "9", "9"] = some true ∧
    specCompare ["2", "0", "0"] ["1", "9", "9"] = Ordering.gt ∧
    runMain (Oracle.mk true true true (some "d") (some "2.0.0") true "v1.9.9"
      true true ["sw"] true true true) =
      (Term.exit0, [Ev.writeTar, Ev.writeExtract, Ev.writeCopy "sw",
        Ev.removeExtract, Ev.removeTar, Ev.writeMarker "1.9.9"]) := by
  refine ⟨by decide, by decide, by decide⟩

/-- Claim C1, amended: when the remote list is no longer than the baseline
list, `existsNewerVersion(prev, cur)` returns (without panicking) true iff
SOME position of `cur` is string-greater than the corresponding position
of `prev` — not the left-to-right short-circuit comparison the claim
states. -/
theorem existsNewer_any_position (prev cur : List String)
    (h : cur.length ≤ prev.length) :
    existsNewerVersion prev cur =
      some ((prev.zip cur).any fun pc => goLess pc.1 pc.2) := by
  induction cur generalizing prev with
  | nil => simp [existsNewerVersion]
  | cons c cs ih =>
    cases prev with
    | nil => simp at h
    | cons p ps =>
      have h2 : cs.length ≤ ps.length := by simpa using h
      by_cases hg : goLess p c = true
      · simp [existsNewerVersion, hg]
      · simp only [Bool.not_eq_true] at hg
        simp [existsNewerVersion, hg, ih ps h2]

/-- Claim C1, witness: the amended rule applied at baseline 2.0.0 and
remote 1.9.9 evaluates to true. -/
theorem existsNewer_any_position_witness :
    existsNewerVersion ["2", "0", "0"] ["1", "9", "9"] =
      some (((["2", "0", "0"] : List String).zip ["1", "9", "9"]).any
        fun pc => goLess pc.1 pc.2) ∧
    (((["2", "0", "0"] : List String).zip ["1", "9", "9"]).any
        fun pc => goLess pc.1 pc.2) = true :=
  ⟨existsNewer_any_position ["2", "0", "0"] ["1", "9", "9"] (by decide), by decide⟩

/-- Claim C2: extraction is required to reject an archive entry whose
relative path escapes the destination; the code instead joins the
destination with the entry name unchecked: for the entry
`../../etc/passthrough` under destination `extracted`, `Untar` writes the
file at the escaped path `../etc/passthrough` (outside the destination)
and returns nil rather than an error. -/
theorem untar_traversal_unchecked :
    untar "extracted" [some (TarEntry.mk "../../etc/passthrough" TarType.reg)] =
      Except.ok [["..", "etc", "passthrough"]] ∧
    withinDir (pathParts "extracted") ["..", "etc", "passthrough"] = false :=
  ⟨rfl, by decide⟩

/-- Claim C3: the version marker is written only as the final step of a
fully successful sync. If download, extraction, or relocation fails, no
marker write occurs, and — when the run actually reached the download
span (fetch succeeded and the comparison chose to sync) — the process
does not terminate with exit 0. Conversely any marker write implies exit
0 and the write is the run's last filesystem event. -/
theorem marker_written_only_after_full_success (o : Oracle) :
    ((o.downloadOk = false ∨ o.extractOk = false ∨ o.copyOk = false) →
      (∀ v, Ev.writeMarker v ∉ (runMain o).2) ∧
      (o.fetchOk = true →
        existsNewerVersion (prevParts o)
          (splitSemver (sanitizeVersion o.remoteTag)) = some true →
        (runMain o).1 ≠ Term.exit0)) ∧
    (∀ v, Ev.writeMarker v ∈ (runMain o).2 →
      (runMain o).1 = Term.exit0 ∧
      ∃ pre, (runMain o).2 = pre ++ [Ev.writeMarker v]) := by
  rcases runMain_shape o with ⟨hD, hM, hrm⟩ | ⟨ev0, hev0, hrest⟩
  · rw [hrm]
    constructor
    · intro _
      constructor
      · intro v
        simp
      · intro _ _
        simp
    · intro v hv
      simp at hv
  · have hev : ∀ e : Ev, e ∈ ev0 → e = Ev.mkdirOut := by
      rcases hev0 with ⟨_, rfl⟩ | ⟨_, _, rfl⟩ <;> simp
    rcases hrest with ⟨hF, hrm⟩ | ⟨hF, hcase⟩
    · rw [hrm]
      constructor
      · intro _
        constructor
        · intro v hv
          cases hev _ hv
        · intro hft _
          rw [hft] at hF
          cases hF
      · intro v hv
        cases hev _ hv
    · rcases hcase with ⟨hr, hrm⟩ | ⟨hr, hrm⟩ | ⟨hr, hrm⟩
      · rw [hrm]
        constructor
        · intro _
          constructor
          · intro v hv
            cases hev _ hv
          · intro _ _
            simp
        · intro v hv
          cases hev _ hv
      · rw [hrm]
        constructor
        · intro _
          constructor
          · intro v hv
            cases hev _ hv
          · intro _ hrt
            rw [hr] at hrt
            simp at hrt
        · intro v hv
          cases hev _ hv
      · rw [hrm]
        constructor
        · intro h
          have hsp := syncPhase_fail o (sanitizeVersion o.remoteTag) h
          constructor
          · intro v hv
            rcases List.mem_append.mp hv with hv | hv
            · cases hev _ hv
            · exact hsp.2 v hv
          · intro _ _
            exact hsp.1
        · intro v hv
          rcases List.mem_append.mp hv with hv | hv
          · cases hev _ hv
          · have hsp := syncPhase_marker o (sanitizeVersion o.remoteTag) v hv
            obtain ⟨pre, hpre⟩ := hsp.2
            refine ⟨hsp.1, ev0 ++ pre, ?_⟩
            rw [hpre, List.append_assoc]

/-- Claim C3, witness: a run whose extraction fails writes no marker and
does not exit 0. -/
theorem marker_written_only_after_full_success_witness :
    (∀ v, Ev.writeMarker v ∉ (runMain (Oracle.mk true true false none none true
      "v1.0.0" true false [] false false false)).2) ∧
    (runMain (Oracle.mk true true false none none true
      "v1.0.0" true false [] false false false)).1 ≠ Term.exit0 := by
  have h := (marker_written_only_after_full_success (Oracle.mk true true false none
    none true "v1.0.0" true false [] false false false)).1 (Or.inr (Or.inl rfl))
  exact ⟨h.1, h.2 rfl (by decide)⟩

end Sud

namespace Sud

/-- Claim C4, counterexample: the claim says an unparseable remote version
makes the run fail before any download or filesystem write. On the code,
remote tag "garbage" is invalid as a version, yet the run string-compares
it against the baseline, downloads, extracts, relocates, and even records
"garbage" in the marker, exiting 0. -/
theorem remote_version_unvalidated_counterexample :
    isVersionValueValid (sanitizeVersion "garbage") = false ∧
    runMain (Oracle.mk true true false none none true "garbage"
      true true ["swagger-ui-x"] true true true) =
      (Term.exit0, [Ev.writeTar, Ev.writeExtract, Ev.writeCopy "swagger-ui-x",
        Ev.removeExtract, Ev.removeTar, Ev.writeMarker "garbage"]) := by
  refine ⟨by decide, by decide⟩

/-- Claim C4, amended: the remote version is never validated. Whenever the
fetch succeeds, the string comparison reports a newer version, and the
download call succeeds, the archive write occurs — regardless of whether
the sanitized remote tag is a valid version. -/
theorem download_proceeds_without_remote_validation (o : Oracle)
    (h1 : o.fetchOk = true)
    (h2 : existsNewerVersion (prevParts o)
      (splitSemver (sanitizeVersion o.remoteTag)) = some true)
    (h3 : o.downloadOk = true)
    (h4 : o.dirExists = true ∨ o.mkdirOk = true) :
    Ev.writeTar ∈ (runMain o).2 := by
  rcases runMain_shape o with ⟨hD, hM, hrm⟩ | ⟨ev0, hev0, hrest⟩
  · rcases h4 with h4 | h4
    · rw [hD] at h4; cases h4
    · rw [hM] at h4; cases h4
  · rcases hrest with ⟨hF, hrm⟩ | ⟨hF, hcase⟩
    · rw [h1] at hF; cases hF
    · rcases hcase with ⟨hr, hrm⟩ | ⟨hr, hrm⟩ | ⟨hr, hrm⟩
      · rw [h2] at hr; cases hr
      · rw [h2] at hr; simp at hr
      · rw [hrm]
        exact List.mem_append.mpr
          (Or.inr (syncPhase_writeTar o (sanitizeVersion o.remoteTag) h3))

/-- Claim C4, witness: with the unparseable remote tag "garbage" the
download write still occurs. -/
theorem download_proceeds_without_remote_validation_witness :
    isVersionValueValid (sanitizeVersion "garbage") = false ∧
    Ev.writeTar ∈ (runMain (Oracle.mk true true false none none true "garbage"
      true true ["swagger-ui-x"] true true true)).2 :=
  ⟨by decide, download_proceeds_without_remote_validation (Oracle.mk true true false
    none none true "garbage" true true ["swagger-ui-x"] true true true)
    rfl (by decide) rfl (Or.inl rfl)⟩

/-- Claim C5, counterexample: the claim says every run that performs the
download phase removes the staging directory and the temporary archive
before terminating. On the code, a run whose extraction fails exits 1
immediately after writing the archive, attempting neither removal. -/
theorem cleanup_skipped_on_failure_counterexample :
    runMain (Oracle.mk true true false none none true "v1.0.0"
      true false [] false false false) = (Term.exit1, [Ev.writeTar]) ∧
    Ev.removeTar ∉ (runMain (Oracle.mk true true false none none true "v1.0.0"
      true false [] false false false)).2 ∧
    Ev.removeExtract ∉ (runMain (Oracle.mk true true false none none true "v1.0.0"
      true false [] false false false)).2 := by
  refine ⟨by decide, by decide, by decide⟩

/-- Claim C5, amended: cleanup is not a guaranteed finalizer; it runs only
on the success path. The staging-directory removal is attempted exactly
when the relocation copy succeeded, the archive removal follows it when
the remove call succeeds, and a run whose extraction fails never removes
the archive. -/
theorem cleanup_only_on_success_path (o : Oracle) :
    (Ev.removeExtract ∈ (runMain o).2 ↔ ∃ d, Ev.writeCopy d ∈ (runMain o).2) ∧
    (Ev.removeExtract ∈ (runMain o).2 → o.removeTarOk = true →
      Ev.removeTar ∈ (runMain o).2) ∧
    (o.extractOk = false → Ev.removeTar ∉ (runMain o).2) := by
  rcases runMain_shape o with ⟨hD, hM, hrm⟩ | ⟨ev0, hev0, hrest⟩
  · rw [hrm]
    refine ⟨by simp, by simp, fun _ => by simp⟩
  · have hev : ∀ e : Ev, e ∈ ev0 → e = Ev.mkdirOut := by
      rcases hev0 with ⟨_, rfl⟩ | ⟨_, _, rfl⟩ <;> simp
    have hcase2 : runMain o = ((syncPhase o (sanitizeVersion o.remoteTag)).1,
        ev0 ++ (syncPhase o (sanitizeVersion o.remoteTag)).2) ∨
        (runMain o).2 = ev0 := by
      rcases hrest with ⟨_, hrm⟩ | ⟨_, ⟨_, hrm⟩ | ⟨_, hrm⟩ | ⟨_, hrm⟩⟩
      · exact Or.inr (by rw [hrm])
      · exact Or.inr (by rw [hrm])
      · exact Or.inr (by rw [hrm])
      · exact Or.inl hrm
    rcases hcase2 with hrm | hrm
    · rw [hrm]
      have hsp := syncPhase_cleanup o (sanitizeVersion o.remoteTag)
      have hnx : Ev.removeExtract ∉ ev0 := fun hv => by cases hev _ hv
      have hnt : Ev.removeTar ∉ ev0 := fun hv => by cases hev _ hv
      have hnc : ∀ d, Ev.writeCopy d ∉ ev0 := fun d hv => by cases hev _ hv
      refine ⟨⟨?_, ?_⟩, ?_, ?_⟩
      · intro hv
        rcases List.mem_append.mp hv with hv | hv
        · exact absurd hv hnx
        · obtain ⟨d, hd⟩ := hsp.1.mp hv
          exact ⟨d, List.mem_append.mpr (Or.inr hd)⟩
      · rintro ⟨d, hv⟩
        rcases List.mem_append.mp hv with hv | hv
        · exact absurd hv (hnc d)
        · exact List.mem_append.mpr (Or.inr (hsp.1.mpr ⟨d, hv⟩))
      · intro hv hrt
        rcases List.mem_append.mp hv with hv | hv
        · exact absurd hv hnx
        · exact List.mem_append.mpr (Or.inr (hsp.2.1 hv hrt))
      · intro he hv
        rcases List.mem_append.mp hv with hv | hv
        · exact absurd hv hnt
        · exact hsp.2.2 he hv
    · rw [hrm]
      refine ⟨⟨?_, ?_⟩, ?_, ?_⟩
      · intro hv
        cases hev _ hv
      · rintro ⟨d, hv⟩
        cases hev _ hv
      · intro hv
        cases hev _ hv
      · intro _ hv
        cases hev _ hv

/-- Claim C5, witness: on a fully successful run the staging removal is
followed by the archive removal. -/
theorem cleanup_only_on_success_path_witness :
    Ev.removeTar ∈ (runMain (Oracle.mk true true false none none true "v1.0.0"
      true true ["sw"] true true true)).2 := by
  have h := cleanup_only_on_success_path (Oracle.mk true true false none none true
    "v1.0.0" true true ["sw"] true true true)
  exact h.2.1 (by decide) rfl

end Sud

namespace Sud

/-- Claim C6, counterexample: the claim says a staging area whose top
level is not exactly one entry makes relocation fail and leaves the
marker untouched. On the code, with two top-level entries the relocation
silently copies the first one and the run completes, updating the
marker. -/
theorem relocate_no_structural_check_counterexample :
    copyContentsToOutput ["first", "second"] true = CopyResult.copied "first" ∧
    runMain (Oracle.mk true true false none none true "v1.0.0"
      true true ["first", "second"] true true true) =
      (Term.exit0, [Ev.writeTar, Ev.writeExtract, Ev.writeCopy "first",
        Ev.removeExtract, Ev.removeTar, Ev.writeMarker "1.0.0"]) := by
  refine ⟨by decide, by decide⟩

/-- Claim C6, amended: the relocation step performs no structural check on
the staging area: an empty listing panics on the out-of-range index
`subdirs[0]`, and a non-empty listing silently uses its first entry
(success or copy error depending only on the copy call), however many
entries there are. -/
theorem relocate_first_entry_behavior (a : String) (rest : List String) (ok : Bool) :
    copyContentsToOutput [] ok = CopyResult.panicked ∧
    copyContentsToOutput (a :: rest) true = CopyResult.copied a ∧
    copyContentsToOutput (a :: rest) false = CopyResult.failed := by
  refine ⟨rfl, rfl, rfl⟩

/-- Claim C6, witness: the amended behavior at a two-entry staging
listing. -/
theorem relocate_first_entry_behavior_witness :
    copyContentsToOutput [] true = CopyResult.panicked ∧
    copyContentsToOutput ["first", "second"] true = CopyResult.copied "first" ∧
    copyContentsToOutput ["first", "second"] false = CopyResult.failed :=
  relocate_first_entry_behavior "first" ["second"] true

/-- Claim C7: when the output directory exists but the marker file is
absent, unreadable, corrupt, lacks the version key, or holds an invalid
version value, the previous version falls back to 0.0.0 and the whole run
behaves exactly as if no marker file existed; no such load failure is
fatal. -/
theorem marker_load_failure_nonfatal (o : Oracle)
    (h1 : o.dirExists = true) (h2 : markerLoadFailed o) :
    prevParts o = ["0", "0", "0"] ∧ runMain o = runMain (clearMarker o) := by
  have hco : prevParts (clearMarker o) = ["0", "0", "0"] := by
    simp [prevParts, clearMarker]
  have hp : prevParts o = ["0", "0", "0"] := by
    rcases h2 with h | h | h | ⟨ver, hv, hbad⟩
    · simp [prevParts, h]
    · cases hfe : o.fileExists
      · simp [prevParts, hfe]
      · simp [prevParts, hfe, h]
    · cases hfe : o.fileExists
      · simp [prevParts, hfe]
      · cases hrd : o.readData
        · simp [prevParts, hfe, hrd]
        · simp [prevParts, hfe, hrd, h]
    · cases hfe : o.fileExists
      · simp [prevParts, hfe]
      · cases hrd : o.readData
        · simp [prevParts, hfe, hrd]
        · rcases hbad with hlen | hbad
          · simp [prevParts, hfe, hrd, hv, hlen]
          · simp only [prevParts, hfe, hrd, hv, h1]
            by_cases hl : ver.length > 0
            · simp [hl, hbad]
            · simp [hl]
  refine ⟨hp, ?_⟩
  show runMainWith (prevParts o) o = runMainWith (prevParts (clearMarker o)) (clearMarker o)
  rw [hp, hco]
  rfl

/-- Claim C7, witness: a marker whose content is not a valid version is
treated exactly like an absent marker. -/
theorem marker_load_failure_nonfatal_witness :
    prevParts (Oracle.mk true true true (some "data") (some "not.a.version") true
      "v1.0.0" true true ["sw"] true true true) = ["0", "0", "0"] ∧
    runMain (Oracle.mk true true true (some "data") (some "not.a.version") true
      "v1.0.0" true true ["sw"] true true true) =
    runMain (clearMarker (Oracle.mk true true true (some "data") (some "not.a.version")
      true "v1.0.0" true true ["sw"] true true true)) :=
  marker_load_failure_nonfatal (Oracle.mk true true true (some "data")
    (some "not.a.version") true "v1.0.0" true true ["sw"] true true true)
    rfl (Or.inr (Or.inr (Or.inr ⟨"not.a.version", rfl, Or.inr (by decide)⟩)))

/-- Claim C8, counterexample: the claim says that whenever `isNewer` is
false the run exits 0 with no filesystem write at all. On the code, a run
against a missing output directory first creates that directory and only
then compares versions — so an up-to-date outcome can still have
performed a filesystem write. -/
theorem up_to_date_mkdir_write_counterexample :
    runMain (Oracle.mk false true false none none true "v0.0.0"
      false false [] false false false) = (Term.exit0, [Ev.mkdirOut]) ∧
    (runMain (Oracle.mk false true false none none true "v0.0.0"
      false false [] false false false)).2 ≠ [] := by
  refine ⟨by decide, by decide⟩

/-- Claim C8, amended: against an existing output directory, whenever the
fetch succeeds and the comparison reports no newer version, the run exits
0 having performed no download and no filesystem write — the idempotence
that matters for a second run against an already-current directory. -/
theorem up_to_date_no_writes_existing_dir (o : Oracle)
    (h1 : o.dirExists = true) (h2 : o.fetchOk = true)
    (h3 : existsNewerVersion (prevParts o)
      (splitSemver (sanitizeVersion o.remoteTag)) = some false) :
    runMain o = (Term.exit0, []) := by
  rcases runMain_shape o with ⟨hD, hM, hrm⟩ | ⟨ev0, hev0, hrest⟩
  · rw [h1] at hD; cases hD
  · have hev0e : ev0 = [] := by
      rcases hev0 with ⟨_, rfl⟩ | ⟨hD, _, rfl⟩
      · rfl
      · rw [h1] at hD; cases hD
    rcases hrest with ⟨hF, hrm⟩ | ⟨hF, hcase⟩
    · rw [h2] at hF; cases hF
    · rcases hcase with ⟨hr, hrm⟩ | ⟨hr, hrm⟩ | ⟨hr, hrm⟩
      · rw [h3] at hr; cases hr
      · rw [hev0e] at hrm; exact hrm
      · rw [h3] at hr; simp at hr

/-- Claim C8, witness: a second run against an existing, already-current
output directory performs no writes and exits 0. -/
theorem up_to_date_no_writes_existing_dir_witness :
    runMain (Oracle.mk true true false none none true "v0.0.0"
      false false [] false false false) = (Term.exit0, []) :=
  up_to_date_no_writes_existing_dir (Oracle.mk true true false none none true
    "v0.0.0" false false [] false false false) rfl rfl (by decide)

end Sud

namespace Sud

/-- Claim C9, counterexample: the claim says parsing strips a single
leading non-numeric character such as "v". The code strips only the
literal lowercase character: "V1.2.3" is left unchanged and therefore
judged invalid, whereas the spec-modelled stripping rule would yield the
valid "1.2.3". -/
theorem sanitize_only_lowercase_v_counterexample :
    sanitizeVersion "V1.2.3" = "V1.2.3" ∧
    isVersionValueValid (sanitizeVersion "V1.2.3") = false ∧
    specSanitizeVersion "V1.2.3" = "1.2.3" ∧
    isVersionValueValid (specSanitizeVersion "V1.2.3") = true := by decide

/-- Claim C9, amended: sanitizing strips the leading character only when
it is exactly the lowercase letter v; splitting is on the dot; the value
is valid iff every dot-separated component Atoi-parses to a non-negative
integer; and the number of components is not constrained to three. -/
theorem version_parsing_characterization (c : Char) (l r : List Char) (v : String)
    (hc : c ≠ 'v') :
    sanitizeVersion (String.mk ('v' :: l)) = String.mk l ∧
    sanitizeVersion (String.mk (c :: r)) = String.mk (c :: r) ∧
    (isVersionValueValid v = true ↔
      ∀ p ∈ splitSemver v, ∃ n : Int, goAtoi p = some n ∧ 0 ≤ n) ∧
    isVersionValueValid "1.2" = true ∧ isVersionValueValid "1.2.3.4" = true := by
  refine ⟨rfl, ?_, ?_, by decide, by decide⟩
  · simp [sanitizeVersion, hc]
  · simp only [isVersionValueValid, splitSemver, List.all_eq_true]
    constructor
    · intro h p hp
      have hx := h p hp
      cases hg : goAtoi p with
      | none => rw [hg] at hx; exact absurd hx (by simp)
      | some n => rw [hg] at hx; exact ⟨n, rfl, by simpa using hx⟩
    · intro h p hp
      obtain ⟨n, hn, hpos⟩ := h p hp
      rw [hn]
      simpa using hpos

/-- Claim C9, witness: the amended parsing rule at concrete inputs, with
an uppercase leading letter left unstripped. -/
theorem version_parsing_characterization_witness :
    sanitizeVersion (String.mk ('v' :: ['1'])) = String.mk ['1'] ∧
    sanitizeVersion (String.mk ('X' :: ['2'])) = String.mk ('X' :: ['2']) ∧
    (isVersionValueValid "1.2.3" = true ↔
      ∀ p ∈ splitSemver "1.2.3", ∃ n : Int, goAtoi p = some n ∧ 0 ≤ n) ∧
    isVersionValueValid "1.2" = true ∧ isVersionValueValid "1.2.3.4" = true :=
  version_parsing_characterization 'X' ['1'] ['2'] "1.2.3" (by decide)

/-- Claim C10, counterexample: the claim states that a remote version with
more components than the baseline — its own example being remote 1.2.3.4
against baseline 0.0.0 — makes the comparison panic. On the code that
very input returns true without panicking, because position 0 already
decides ("1" > "0") before the out-of-range index is reached. -/
theorem longer_remote_returns_true_counterexample :
    existsNewerVersion ["0", "0", "0"] ["1", "2", "3", "4"] = some true := by decide

/-- Claim C10, amended: the comparison panics (indexes the baseline out of
range) exactly in the narrower situation where the remote list is longer
than the baseline AND no position within the baseline's range is
string-greater on the remote side — e.g. remote 0.0.0.1 against baseline
0.0.0. -/
theorem comparison_panics_when_undecided (prev cur : List String)
    (hlen : prev.length < cur.length)
    (hall : ((prev.zip cur).all fun pc => !(goLess pc.1 pc.2)) = true) :
    existsNewerVersion prev cur = none := by
  induction prev generalizing cur with
  | nil =>
    cases cur with
    | nil => simp at hlen
    | cons c cs => simp [existsNewerVersion]
  | cons p ps ih =>
    cases cur with
    | nil => simp at hlen
    | cons c cs =>
      simp only [List.zip_cons_cons, List.all_cons, Bool.and_eq_true,
        Bool.not_eq_true'] at hall
      simp [existsNewerVersion, hall.1]
      exact ih cs (by simpa using hlen) hall.2

/-- Claim C10, witness: remote 0.0.0.1 against baseline 0.0.0 panics. -/
theorem comparison_panics_when_undecided_witness :
    existsNewerVersion ["0", "0", "0"] ["0", "0", "0", "1"] = none :=
  comparison_panics_when_undecided ["0", "0", "0"] ["0", "0", "0", "1"]
    (by decide) (by decide)

end Sud
